import Mathlib

/-
Verification development for the Gemini RAG service client
(services/geminiService.ts of the cratic-ai chatbot-gemini-services
repository).

The TypeScript source is shallowly embedded as follows:
* The module-level `ai` handle being set is embedded as a Boolean
  `initd` parameter threaded into every operation: the source guard
  `if (!ai) throw new Error("Gemini AI not initialized")` becomes an
  `Err.backendUnavailable` result.
* Remote backend replies are inputs: a paginated listing is the page
  sequence `List (List _)` the async Pager yields (iterating the pager
  visits the pages' records in order); a create reply is a record with
  optional fields; the long-running-operation poll consults an initial
  operation value and a function `fetch : Nat -> Operation` giving the
  i-th `operations.get` result.
* Every operation also returns the list of backend interactions it
  performed (`Call` events, including the `delay(3000)` sleeps), so
  "performs no network call" and "polls k times" are provable.
* JavaScript truthiness on optional strings (`!s`, `a && b`, `x || y`)
  is modelled exactly: `none` and `some ""` are falsy.
* Fallible TypeScript code (`throw` / rejected promises) is embedded
  with `Except`; the `JSON.parse` platform builtin (not repository
  code) is a parameter `parse : List Char -> Option Json` where `none`
  models a parse exception.
-/

namespace GeminiSvc

/-- A store as the service returns it to callers (`RagStore` in types). -/
structure RagStore where
  name : String
  displayName : String
deriving DecidableEq

/-- A raw `FileSearchStore` record coming back from the backend's
paginated store listing or from `fileSearchStores.create`; both fields
are optional on the wire. -/
structure StoreRecord where
  name : Option String
  displayName : Option String
deriving DecidableEq

/-- A raw `File` record from the backend's global `files.list` pager.
Only the fields the service inspects are modelled. -/
structure FileRecord where
  name : Option String
  displayName : Option String
deriving DecidableEq

/-- `CustomMetadata` wire shape: `\x7b key, stringValue \x7d`. -/
structure CustomMetadata where
  key : String
  stringValue : String
deriving DecidableEq

/-- A long-running operation status as observed by the client:
completion flag plus an optional failure payload. -/
structure Operation where
  done : Bool
  error : Option String
deriving DecidableEq

/-- The service's failure taxonomy.  `backendUnavailable` embeds
`Error("Gemini AI not initialized")`, `invalidResponse` embeds
`Error("Failed to create RAG store: name is missing.")`, `transport`
embeds an error thrown by a backend call itself. -/
inductive Err where
  | backendUnavailable
  | invalidResponse
  | transport (details : String)
deriving DecidableEq

/-- One observable backend interaction (or timer sleep) performed by an
operation of the service. -/
inductive Call where
  | listStores
  | listFiles
  | createStore
  | deleteStore (name : String)
  | uploadCall (storeName : String)
  | opGet (i : Nat)
  | sleep (ms : Nat)
  | generate
  | deleteFile (name : String)
deriving DecidableEq

/-- The record constructor inside the `listRagStores` loop:
`if (store.name && store.displayName) stores.push(...)`.  JavaScript
`&&` on strings is falsy for the empty string, so a record is kept
exactly when both optional fields are present and non-empty. -/
def mkStore (r : StoreRecord) : Option RagStore :=
  match r.name, r.displayName with
  | some n, some d => if n ≠ "" ∧ d ≠ "" then some ⟨n, d⟩ else none
  | _, _ => none

/-- The `for await (const store of response)` accumulation loop of
`listRagStores` (source lines 26-33). -/
def listRagStoresLoop : List StoreRecord → List RagStore → List RagStore
  | [], acc => acc
  | r :: rest, acc =>
    match mkStore r with
    | some s => listRagStoresLoop rest (acc ++ [s])
    | none => listRagStoresLoop rest acc

/-- `listRagStores()` (source lines 23-35): guard on the module handle,
drain the store pager, keep the well-formed records. -/
def listRagStores (initd : Bool) (pages : List (List StoreRecord)) :
    Except Err (List RagStore) × List Call :=
  if initd then
    (Except.ok (listRagStoresLoop pages.flatten []), [Call.listStores])
  else
    (Except.error Err.backendUnavailable, [])

/-- The client-side scope filter of `listDocumentsInStore` (source line
48): `doc.name?.startsWith(ragStoreName + "/")`; a record without a
name is skipped (optional chaining yields undefined, which is falsy). -/
def docInScope (ragStoreName : String) (d : FileRecord) : Bool :=
  match d.name with
  | some nm => nm.startsWith (ragStoreName ++ "/")
  | none => false

/-- The `for await (const doc of response)` accumulation loop of
`listDocumentsInStore` (source lines 44-51). -/
def listDocumentsLoop (ragStoreName : String) :
    List FileRecord → List FileRecord → List FileRecord
  | [], acc => acc
  | d :: rest, acc =>
    if docInScope ragStoreName d then
      listDocumentsLoop ragStoreName rest (acc ++ [d])
    else
      listDocumentsLoop ragStoreName rest acc

/-- `listDocumentsInStore(ragStoreName)` (source lines 39-53): guard,
drain the backend's global file pager, filter client-side by the
store-name prefix. -/
def listDocumentsInStore (initd : Bool) (ragStoreName : String)
    (pages : List (List FileRecord)) :
    Except Err (List FileRecord) × List Call :=
  if initd then
    (Except.ok (listDocumentsLoop ragStoreName pages.flatten []), [Call.listFiles])
  else
    (Except.error Err.backendUnavailable, [])

/-- `createRagStore(displayName)` (source lines 55-62); `reply` is the
backend's `fileSearchStores.create` response.  `if (!ragStore.name)
throw ...` rejects an absent name and, by JavaScript falsiness, also an
empty-string name. -/
def createRagStore (initd : Bool) (displayName : String)
    (reply : StoreRecord) : Except Err String × List Call :=
  if initd then
    (match reply.name with
     | some n => if n = "" then Except.error Err.invalidResponse else Except.ok n
     | none => Except.error Err.invalidResponse, [Call.createStore])
  else
    (Except.error Err.backendUnavailable, [])

/-- `deleteRagStore(ragStoreName)` (source lines 175-181). -/
def deleteRagStore (initd : Bool) (ragStoreName : String) :
    Except Err Unit × List Call :=
  if initd then
    (Except.ok (), [Call.deleteStore ragStoreName])
  else
    (Except.error Err.backendUnavailable, [])

/-- `deleteDocument(documentName)` (source lines 183-188). -/
def deleteDocument (initd : Bool) (documentName : String) :
    Except Err Unit × List Call :=
  if initd then
    (Except.ok (), [Call.deleteFile documentName])
  else
    (Except.error Err.backendUnavailable, [])

/-- The polling loop shared by `uploadToRagStore` (source lines 72-75)
and `uploadDocument` (source lines 89-92):
`while (!op.done) \x7b await delay(3000); op = await operations.get \x7d`.
`fetch i` is the backend's reply to the i-th re-fetch, `i` the index of
the next re-fetch, `fuel` an embedding artifact bounding how many times
the loop guard may be evaluated (the source loop is unbounded); a
`none` result means the loop is still running after `fuel` guard
evaluations.  The second component is the trace of sleeps and
status re-fetches performed. -/
def pollOps (fetch : Nat → Operation) :
    Nat → Operation → Nat → Option Operation × List Call
  | 0, _, _ => (none, [])
  | fuel + 1, op, i =>
    if op.done then (some op, [])
    else
      let r := pollOps fetch fuel (fetch i) (i + 1)
      (r.1, Call.sleep 3000 :: Call.opGet i :: r.2)

/-- `uploadToRagStore(ragStoreName, file)` (source lines 64-76): guard,
start the ingestion (`uploadToFileSearchStore`, whose reply is `op0`),
then poll to completion.  The loop body never inspects the operation's
error payload; once `done` is observed the function returns `void`. -/
def uploadToRagStore (initd : Bool) (ragStoreName fileName : String)
    (op0 : Operation) (fetch : Nat → Operation) (fuel : Nat) :
    Option (Except Err Unit) × List Call :=
  if initd then
    let r := pollOps fetch fuel op0 0
    (r.1.map fun _ => Except.ok (), Call.uploadCall ragStoreName :: r.2)
  else
    (some (Except.error Err.backendUnavailable), [])

/-- `uploadDocument(ragStoreName, file, metadata)` (source lines
78-93): identical control flow to `uploadToRagStore`, additionally
passing `displayName` and `customMetadata` with the upload request. -/
def uploadDocument (initd : Bool) (ragStoreName fileName : String)
    (metadata : List CustomMetadata) (op0 : Operation)
    (fetch : Nat → Operation) (fuel : Nat) :
    Option (Except Err Unit) × List Call :=
  if initd then
    let r := pollOps fetch fuel op0 0
    (r.1.map fun _ => Except.ok (), Call.uploadCall ragStoreName :: r.2)
  else
    (some (Except.error Err.backendUnavailable), [])

/-- The sequence of operation statuses the poll loop observes: index 0
is the initial upload reply, index `j + 1` the reply to re-fetch `j`. -/
def opObs (op0 : Operation) (fetch : Nat → Operation) : Nat → Operation
  | 0 => op0
  | j + 1 => fetch j

/-- Observation sequence of a poll loop entered mid-run: the current
operation value, then the replies to re-fetches `i`, `i + 1`, ... -/
def opObsFrom (fetch : Nat → Operation) (i : Nat) (op : Operation) :
    Nat → Operation
  | 0 => op
  | j + 1 => fetch (i + j)

/-- The trace a poll loop run of `k` iterations emits when its next
re-fetch index is `i`: `k` sleeps of the fixed 3000 ms interval, one
before each of the `k` status re-fetches. -/
def pollTraceFrom (i k : Nat) : List Call :=
  match k with
  | 0 => []
  | k' + 1 => Call.sleep 3000 :: Call.opGet i :: pollTraceFrom (i + 1) k'

/-- Number of `operations.get` status re-fetches recorded in a trace. -/
def countFetches (tr : List Call) : Nat :=
  (tr.filter fun c => match c with | Call.opGet _ => true | _ => false).length

/-- Number of timer sleeps recorded in a trace. -/
def countSleeps (tr : List Call) : Nat :=
  (tr.filter fun c => match c with | Call.sleep _ => true | _ => false).length

/- ------------------------------------------------------------------ -/
/- Query orchestration (`fileSearch`, source lines 95-117).           -/
/- ------------------------------------------------------------------ -/

/-- A grounding chunk of the backend's response; the service passes
chunks through without inspecting them. -/
structure GChunk where
  raw : String
deriving DecidableEq

/-- `groundingMetadata` of a response candidate. -/
structure GroundingMetadata where
  groundingChunks : Option (List GChunk)
deriving DecidableEq

/-- A response candidate. -/
structure Candidate where
  groundingMetadata : Option GroundingMetadata
deriving DecidableEq

/-- A `GenerateContentResponse` as far as the service reads it. -/
structure GenResponse where
  text : String
  candidates : Option (List Candidate)
deriving DecidableEq

/-- `QueryResult`: answer text plus extracted grounding chunks. -/
structure QueryResult where
  text : String
  groundingChunks : List GChunk
deriving DecidableEq

/-- Source line 97:
`supportedLanguages[language] || 'the user\x27s query language'`.
The static `supportedLanguages` table lives in `types.ts` (outside the
embedded module) and is passed as the lookup function; JavaScript `||`
falls back on `undefined` and on the empty string. -/
def languageNameFor (supportedLanguages : String → Option String)
    (language : String) : String :=
  match supportedLanguages language with
  | some s => if s = "" then "the user\x27s query language" else s
  | none => "the user\x27s query language"

/-- The prompt built on source line 100. -/
def fileSearchContents (query languageName : String) : String :=
  query ++ "\n\nIMPORTANT: Please respond in " ++ languageName ++
    ". DO NOT ASK THE USER TO READ THE MANUAL, pinpoint the relevant sections in the response itself."

/-- Source line 112:
`response.candidates?.[0]?.groundingMetadata?.groundingChunks || []`. -/
def extractChunks (resp : GenResponse) : List GChunk :=
  (((resp.candidates.bind List.head?).bind
      Candidate.groundingMetadata).bind
      GroundingMetadata.groundingChunks).getD []

/-- `fileSearch(ragStoreName, query, language)` (source lines 95-117):
guard, resolve the language directive, call `generateContent` scoped to
the store (`gen` receives the composed contents and models that call,
an `Except.error` being a rejected backend call), and normalize the
response. -/
def fileSearch (initd : Bool)
    (supportedLanguages : String → Option String)
    (ragStoreName query language : String)
    (gen : String → Except String GenResponse) :
    Except Err QueryResult × List Call :=
  if initd then
    let languageName := languageNameFor supportedLanguages language
    (match gen (fileSearchContents query languageName) with
     | Except.error e => Except.error (Err.transport e)
     | Except.ok resp => Except.ok ⟨resp.text, extractChunks resp⟩,
     [Call.generate])
  else
    (Except.error Err.backendUnavailable, [])

/- ------------------------------------------------------------------ -/
/- Structured-suggestion extraction (`generateExampleQuestions`,      -/
/- source lines 119-173).                                             -/
/- ------------------------------------------------------------------ -/

/-- JSON values as produced by `JSON.parse`. -/
inductive Json where
  | null
  | bool (b : Bool)
  | num (n : Int)
  | str (s : String)
  | arr (items : List Json)
  | obj (fields : List (String × Json))

/-- JavaScript truthiness of a JSON value. -/
def jsTruthy : Json → Bool
  | Json.null => false
  | Json.bool b => b
  | Json.num n => n != 0
  | Json.str s => s != ""
  | Json.arr _ => true
  | Json.obj _ => true

/-- Property read `v[key]` on a JSON value other than `null`:
`some` when `v` is an object carrying the key, `none` (undefined)
otherwise.  (Reading a property of `null` throws instead and is
handled at the use site.) -/
def jsGet (v : Json) (key : String) : Option Json :=
  match v with
  | Json.obj fields => (fields.find? fun p => p.1 == key).map Prod.snd
  | _ => none

/-- `typeof q === 'string'` as a pattern. -/
def asString : Json → Option String
  | Json.str s => some s
  | _ => none

/-- Whether a JSON value is a string. -/
def isJsonString : Json → Bool
  | Json.str _ => true
  | _ => false

/-- Source line 158 guard: `typeof firstItem === 'object' && firstItem
!== null && 'questions' in firstItem && Array.isArray(firstItem.questions)`.
Only a non-null object can carry a `questions` key (`'questions' in`
an array is false for plain arrays), so the guard holds exactly for an
object whose `questions` entry is an array. -/
def isObjWithQuestionsArr (v : Json) : Bool :=
  match v with
  | Json.obj _ =>
    match jsGet v "questions" with
    | some (Json.arr _) => true
    | _ => false
  | _ => false

/-- The flatMap callback payload `item.questions || []` (source line
159) for a non-null item: the `questions` array if array-valued; for a
truthy non-array value, `flatMap` keeps the value itself as a single
element; a falsy or absent value contributes nothing.  `Except.error`
models the TypeError thrown when `item` is `null`. -/
def questionsPayload (item : Json) : Except Unit (List Json) :=
  match item with
  | Json.null => Except.error ()
  | _ =>
    Except.ok
      (match jsGet item "questions" with
       | none => []
       | some v =>
         match v with
         | Json.arr qs => qs
         | _ => if jsTruthy v then [v] else [])

/-- `parsedData.flatMap(item => (item.questions || []))` (source line
159), evaluated left to right and aborting at the first `null` item. -/
def flatMapQuestions : List Json → Except Unit (List Json)
  | [] => Except.ok []
  | it :: rest => do
    let qs ← questionsPayload it
    let r ← flatMapQuestions rest
    Except.ok (qs ++ r)

/-- The shape coercion applied to the parsed JSON (source lines
152-168): empty array stays empty; an array whose first element is an
object with an array-valued `questions` field is flatMapped over
`questions` and filtered to strings; an array whose first element is a
string is filtered to strings; anything else (including a non-array)
coerces to the empty list after a console warning. -/
def coerceParsed : Json → Except Unit (List String)
  | Json.arr [] => Except.ok []
  | Json.arr (first :: rest) =>
    if isObjWithQuestionsArr first then
      (flatMapQuestions (first :: rest)).map fun l => l.filterMap asString
    else if isJsonString first then
      Except.ok ((first :: rest).filterMap asString)
    else
      Except.ok []
  | _ => Except.ok []

/-- The whitespace class trimmed from both ends by `String.trim`
(source line 137); the common ASCII subset suffices here. -/
def isJsWs (c : Char) : Bool :=
  c == ' ' || c == '\n' || c == '\t' || c == '\r'

/-- `response.text.trim()` on the character list. -/
def jsTrim (l : List Char) : List Char :=
  ((l.dropWhile isJsWs).reverse.dropWhile isJsWs).reverse

/-- Index of the first occurrence of `nd` in a character list. -/
def findSub (nd : List Char) : List Char → Option Nat
  | [] => if List.isPrefixOf nd [] then some 0 else none
  | c :: t =>
    if List.isPrefixOf nd (c :: t) then some 0
    else (findSub nd t).map (· + 1)

/-- Index of the last occurrence of character `c` (`lastIndexOf`). -/
def lastIdxOf (c : Char) : List Char → Option Nat
  | [] => none
  | x :: t =>
    match lastIdxOf c t with
    | some i => some (i + 1)
    | none => if x == c then some 0 else none

/-- The fallback slice of source lines 143-147: take the characters
from the first literal open bracket through the last literal close
bracket when the latter is strictly beyond the former, else keep the
text as is. -/
def bracketSlice (t : List Char) : List Char :=
  match findSub ['['] t, lastIdxOf ']' t with
  | some f, some l => if f < l then (t.take (l + 1)).drop f else t
  | _, _ => t

/-- Source lines 139-148: the regex match against
`/(three backticks)json\n([\s\S]*?)\n(three backticks)/` — i.e. the
text after the first fence opener up to the next fence closer — is
used when it exists and captures a non-empty group (an empty capture
is falsy and is discarded); otherwise the bracket fallback runs on the
whole text. -/
def extractJsonText (t : List Char) : List Char :=
  match findSub ("```json\n".toList) t with
  | some i =>
    let rest := t.drop (i + 8)
    match findSub ("\n```".toList) rest with
    | some j =>
      let grp := rest.take j
      if grp.isEmpty then bracketSlice t else grp
    | none => bracketSlice t
  | none => bracketSlice t

/-- The prompt built on source line 125 (`languageName` interpolated). -/
def exampleQuestionsPrompt (languageName : String) : String :=
  "You are provided with Standard Operating Procedure (SOP) documents from a manufacturing environment. For each document, generate 4 short and practical example questions a user might ask about the procedures in "
    ++ languageName ++
    ". Return the questions as a JSON array of objects. Each object should have a \x27product\x27 key (representing the SOP topic, e.g., \x27Machine Calibration\x27) and a \x27questions\x27 key with an array of 4 question strings. For example: ```json[\x7b\"product\": \"Machine Calibration SOP\", \"questions\": [\"What is the first step in calibration?\", \"How often should this machine be calibrated?\"]\x7d, \x7b\"product\": \"Assembly Line Safety\", \"questions\": [\"What personal protective equipment is required?\", \"What is the emergency shutdown procedure?\"]\x7d]```"

/-- Source line 121: `supportedLanguages[language] || 'English'`. -/
def suggestionLanguageName (supportedLanguages : String → Option String)
    (language : String) : String :=
  match supportedLanguages language with
  | some s => if s = "" then "English" else s
  | none => "English"

/-- `generateExampleQuestions(ragStoreName, language)` (source lines
119-173).  `gen` models the `generateContent` call (receiving the
composed prompt, `Except.error` a rejected call), `parse` models the
`JSON.parse` platform builtin (`none` a parse exception).  Everything
from the backend call through the coercion runs inside `try`; the
`catch` turns any throw into an empty result. -/
def generateExampleQuestions (initd : Bool)
    (supportedLanguages : String → Option String)
    (ragStoreName language : String)
    (gen : String → Except String String)
    (parse : List Char → Option Json) :
    Except Err (List String) × List Call :=
  if initd then
    let languageName := suggestionLanguageName supportedLanguages language
    let tried : Except Unit (List String) :=
      match gen (exampleQuestionsPrompt languageName) with
      | Except.error _ => Except.error ()
      | Except.ok text =>
        let jsonText := extractJsonText (jsTrim text.toList)
        match parse jsonText with
        | none => Except.error ()
        | some data => coerceParsed data
    (match tried with
     | Except.ok qs => Except.ok qs
     | Except.error _ => Except.ok [],
     [Call.generate])
  else
    (Except.error Err.backendUnavailable, [])

/-- Modelled from the spec and claim wording of the shape coercion
(the claim's own formula, for comparison with `coerceParsed`): for a
non-empty array whose first element is an object with an array-valued
`questions` field, the concatenation of all elements' `questions`
arrays keeping only string entries; for a first element that is a
string, the array filtered to its string entries; else empty. -/
def coerceSpec : Json → List String
  | Json.arr [] => []
  | Json.arr (first :: rest) =>
    if isObjWithQuestionsArr first then
      ((first :: rest).flatMap fun it =>
        match jsGet it "questions" with
        | some (Json.arr qs) => qs
        | _ => []).filterMap asString
    else if isJsonString first then
      (first :: rest).filterMap asString
    else
      []
  | _ => []

/-- The pure per-item payload of the flatMap on source line 159,
meaningful for item lists without `null` (where no TypeError can
fire). -/
def questionsPure (item : Json) : List Json :=
  match jsGet item "questions" with
  | none => []
  | some v =>
    match v with
    | Json.arr qs => qs
    | _ => if jsTruthy v then [v] else []

/- ------------------------------------------------------------------ -/
/- Helper lemmas.                                                     -/
/- ------------------------------------------------------------------ -/

theorem listRagStoresLoop_eq (l : List StoreRecord) :
    ∀ acc, listRagStoresLoop l acc = acc ++ l.filterMap mkStore := by
  induction l with
  | nil => intro acc; simp [listRagStoresLoop]
  | cons r rest ih =>
    intro acc
    cases h : mkStore r with
    | some s => simp [listRagStoresLoop, h, ih]
    | none => simp [listRagStoresLoop, h, ih]

theorem listDocumentsLoop_eq (s : String) (l : List FileRecord) :
    ∀ acc, listDocumentsLoop s l acc = acc ++ l.filter (docInScope s) := by
  induction l with
  | nil => intro acc; simp [listDocumentsLoop]
  | cons d rest ih =>
    intro acc
    cases h : docInScope s d with
    | true => simp [listDocumentsLoop, h, ih, List.filter_cons]
    | false => simp [listDocumentsLoop, h, ih, List.filter_cons]

theorem opObsFrom_shift (fetch : Nat → Operation) (i : Nat) (op : Operation) :
    ∀ j, opObsFrom fetch (i + 1) (fetch i) j = opObsFrom fetch i op (j + 1) := by
  intro j
  cases j with
  | zero => show fetch i = fetch (i + 0); rw [Nat.add_zero]
  | succ j => show fetch (i + 1 + j) = fetch (i + (j + 1)); congr 1; omega

theorem pollOps_done_general (fetch : Nat → Operation) :
    ∀ (k i fuel : Nat) (op : Operation),
      (∀ j, j < k → (opObsFrom fetch i op j).done = false) →
      (opObsFrom fetch i op k).done = true →
      k < fuel →
      pollOps fetch fuel op i = (some (opObsFrom fetch i op k), pollTraceFrom i k) := by
  intro k
  induction k with
  | zero =>
    intro i fuel op _ hdone hfuel
    obtain ⟨f, rfl⟩ : ∃ f, fuel = f + 1 := ⟨fuel - 1, by omega⟩
    have h0 : op.done = true := hdone
    simp [pollOps, h0, pollTraceFrom, opObsFrom]
  | succ k ih =>
    intro i fuel op hnot hdone hfuel
    obtain ⟨f, rfl⟩ : ∃ f, fuel = f + 1 := ⟨fuel - 1, by omega⟩
    have h0 : op.done = false := hnot 0 (Nat.succ_pos k)
    have ih' := ih (i + 1) f (fetch i)
      (fun j hj => by
        rw [opObsFrom_shift fetch i op j]; exact hnot (j + 1) (by omega))
      (by rw [opObsFrom_shift fetch i op k]; exact hdone)
      (by omega)
    simp [pollOps, h0, ih', opObsFrom_shift fetch i op k, pollTraceFrom]

theorem pollOps_none_general (fetch : Nat → Operation) :
    ∀ (fuel k i : Nat) (op : Operation),
      fuel ≤ k →
      (∀ j, j < k → (opObsFrom fetch i op j).done = false) →
      (pollOps fetch fuel op i).1 = none := by
  intro fuel
  induction fuel with
  | zero => intro k i op _ _; simp [pollOps]
  | succ f ih =>
    intro k i op hle hnot
    obtain ⟨k', rfl⟩ : ∃ k', k = k' + 1 := ⟨k - 1, by omega⟩
    have h0 : op.done = false := hnot 0 (by omega)
    have := ih k' (i + 1) (fetch i) (by omega)
      (fun j hj => by
        rw [opObsFrom_shift fetch i op j]; exact hnot (j + 1) (by omega))
    simp [pollOps, h0, this]

theorem opObs_eq_opObsFrom (op0 : Operation) (fetch : Nat → Operation) :
    ∀ j, opObs op0 fetch j = opObsFrom fetch 0 op0 j := by
  intro j
  cases j with
  | zero => rfl
  | succ j => show fetch j = fetch (0 + j); rw [Nat.zero_add]

theorem countFetches_pollTraceFrom : ∀ (k i : Nat), countFetches (pollTraceFrom i k) = k := by
  intro k
  induction k with
  | zero => intro i; rfl
  | succ k ih => intro i; simp [pollTraceFrom, countFetches, List.filter_cons] at ih ⊢; exact ih (i + 1)

theorem countSleeps_pollTraceFrom : ∀ (k i : Nat), countSleeps (pollTraceFrom i k) = k := by
  intro k
  induction k with
  | zero => intro i; rfl
  | succ k ih => intro i; simp [pollTraceFrom, countSleeps, List.filter_cons] at ih ⊢; exact ih (i + 1)

theorem questionsPayload_ok (item : Json) (h : item ≠ Json.null) :
    questionsPayload item = Except.ok (questionsPure item) := by
  cases item with
  | null => exact absurd rfl h
  | bool b => rfl
  | num n => rfl
  | str s => rfl
  | arr l => rfl
  | obj f => rfl

theorem flatMapQuestions_no_null :
    ∀ (items : List Json), Json.null ∉ items →
      flatMapQuestions items = Except.ok (items.flatMap questionsPure) := by
  intro items
  induction items with
  | nil => intro _; rfl
  | cons it rest ih =>
    intro h
    have h1 : it ≠ Json.null := fun e => h (e ▸ List.mem_cons_self it rest)
    have h2 : Json.null ∉ rest := fun m => h (List.mem_cons_of_mem _ m)
    simp [flatMapQuestions, questionsPayload_ok it h1, ih h2, List.flatMap_cons, Except.bind]
    rfl

theorem flatMapQuestions_with_null :
    ∀ (items : List Json), Json.null ∈ items →
      flatMapQuestions items = Except.error () := by
  intro items
  induction items with
  | nil => intro h; cases h
  | cons it rest ih =>
    intro h
    by_cases e : it = Json.null
    · subst e; rfl
    · rcases List.mem_cons.mp h with h' | h'
      · exact absurd h'.symm e
      · simp [flatMapQuestions, questionsPayload_ok it e, ih h', Except.bind]
        rfl

theorem coerceParsed_not_arr (d : Json) (h : ∀ items, d ≠ Json.arr items) :
    coerceParsed d = Except.ok [] := by
  cases d with
  | arr items => exact absurd rfl (h items)
  | null => rfl
  | bool b => rfl
  | num n => rfl
  | str s => rfl
  | obj f => rfl

/- ------------------------------------------------------------------ -/
/- Claim theorems.                                                    -/
/- ------------------------------------------------------------------ -/

/-- C3: the listing operations drain the whole page sequence and
return exactly the records accepted by the source's per-listing check
(`storeWellFormed` via `mkStore` for stores: both fields present and
non-empty; the store-scope filter `docInScope` for documents), in the
order received across pages; in particular a record missing its `name`
identity field is silently dropped, and malformed records never make
the listing fail: the call still returns `Except.ok`. -/
theorem listings_drain_pages_in_order
    (storePages : List (List StoreRecord)) (ragStoreName : String)
    (filePages : List (List FileRecord)) :
    listRagStores true storePages
        = (Except.ok (storePages.flatten.filterMap mkStore), [Call.listStores]) ∧
    listDocumentsInStore true ragStoreName filePages
        = (Except.ok (filePages.flatten.filter (docInScope ragStoreName)),
           [Call.listFiles]) ∧
    (∀ d : Option String, mkStore ⟨none, d⟩ = none) ∧
    (∀ d : Option String, docInScope ragStoreName ⟨none, d⟩ = false) := by
  refine ⟨?_, ?_, ?_, ?_⟩
  · simp [listRagStores, listRagStoresLoop_eq]
  · simp [listDocumentsInStore, listDocumentsLoop_eq]
  · intro d; rfl
  · intro d; rfl

/-- C4: `listDocumentsInStore(storeName)` returns exactly the entries
of the backend's global file listing whose name starts with
`storeName + "/"`; entries with a different prefix or without a name
are excluded. -/
theorem listDocuments_scope_filter (ragStoreName : String)
    (pages : List (List FileRecord)) :
    (listDocumentsInStore true ragStoreName pages).1
        = Except.ok (pages.flatten.filter (docInScope ragStoreName)) ∧
    (∀ d : FileRecord,
      d ∈ pages.flatten.filter (docInScope ragStoreName) ↔
        (d ∈ pages.flatten ∧
         ∃ nm, d.name = some nm ∧ nm.startsWith (ragStoreName ++ "/") = true)) := by
  constructor
  · simp [listDocumentsInStore, listDocumentsLoop_eq]
  · intro d
    rw [List.mem_filter]
    constructor
    · rintro ⟨hm, hs⟩
      refine ⟨hm, ?_⟩
      cases hn : d.name with
      | none => rw [docInScope, hn] at hs; cases hs
      | some nm => exact ⟨nm, rfl, by rw [docInScope, hn] at hs; exact hs⟩
    · rintro ⟨hm, nm, hn, hs⟩
      exact ⟨hm, by rw [docInScope, hn]; exact hs⟩

/-- C7 counterexample: the backend reply carries an assigned name — the
field is present, with value `""` — yet `createRagStore` raises
`InvalidResponse` instead of returning that assigned name, because the
source tests `!ragStore.name` and the empty string is falsy. -/
theorem createStore_empty_name_cex :
    createRagStore true "disp" ⟨some "", some "disp"⟩
        = (Except.error Err.invalidResponse, [Call.createStore]) ∧
    (⟨some "", some "disp"⟩ : StoreRecord).name = some "" := ⟨rfl, rfl⟩

/-- C7 (amended): `createRagStore` raises `InvalidResponse` when the
backend reply omits the assigned store name or carries an empty one,
and otherwise returns the assigned name. -/
theorem createStore_name_validation (displayName : String)
    (reply : StoreRecord) :
    ((reply.name = none ∨ reply.name = some "") →
       createRagStore true displayName reply
         = (Except.error Err.invalidResponse, [Call.createStore])) ∧
    (∀ n, reply.name = some n → n ≠ "" →
       createRagStore true displayName reply
         = (Except.ok n, [Call.createStore])) := by
  constructor
  · rintro (h | h) <;> simp [createRagStore, h]
  · intro n h hne
    simp [createRagStore, h, hne]

/-- C7 witness: a reply with no name field is rejected with
`InvalidResponse`. -/
theorem createStore_name_validation_witness :
    createRagStore true "d" ⟨none, none⟩
      = (Except.error Err.invalidResponse, [Call.createStore]) :=
  (createStore_name_validation "d" ⟨none, none⟩).1 (Or.inl rfl)

/-- C8: every public operation of the service, called before the
module handle is initialized, fails fast with the
`BackendUnavailable` error (`Error("Gemini AI not initialized")`) and
performs no backend call at all: its interaction trace is empty. -/
theorem uninitialized_fails_fast
    (storePages : List (List StoreRecord))
    (filePages : List (List FileRecord))
    (displayName : String) (reply : StoreRecord)
    (store file docName query lang : String)
    (md : List CustomMetadata) (op0 : Operation)
    (fetch : Nat → Operation) (fuel : Nat)
    (map : String → Option String)
    (gen : String → Except String GenResponse)
    (gen2 : String → Except String String)
    (parse : List Char → Option Json) :
    listRagStores false storePages = (Except.error Err.backendUnavailable, []) ∧
    listDocumentsInStore false store filePages
        = (Except.error Err.backendUnavailable, []) ∧
    createRagStore false displayName reply
        = (Except.error Err.backendUnavailable, []) ∧
    deleteRagStore false store = (Except.error Err.backendUnavailable, []) ∧
    deleteDocument false docName = (Except.error Err.backendUnavailable, []) ∧
    uploadToRagStore false store file op0 fetch fuel
        = (some (Except.error Err.backendUnavailable), []) ∧
    uploadDocument false store file md op0 fetch fuel
        = (some (Except.error Err.backendUnavailable), []) ∧
    fileSearch false map store query lang gen
        = (Except.error Err.backendUnavailable, []) ∧
    generateExampleQuestions false map store lang gen2 parse
        = (Except.error Err.backendUnavailable, []) :=
  ⟨rfl, rfl, rfl, rfl, rfl, rfl, rfl, rfl, rfl⟩

/-- C10 counterexample: a backend record whose `name` and `displayName`
fields are both present (`name` being the empty string) is nonetheless
omitted from the `listRagStores` result, because the source's
`store.name && store.displayName` check treats the empty string as
falsy; the claimed "included iff both fields present" fails. -/
theorem listStores_empty_name_cex :
    (listRagStores true [[⟨some "", some "d"⟩]]).1 = Except.ok [] ∧
    (⟨some "", some "d"⟩ : StoreRecord).name ≠ none ∧
    (⟨some "", some "d"⟩ : StoreRecord).displayName ≠ none := by
  refine ⟨rfl, ?_, ?_⟩ <;> simp

/-- C10 (amended): a backend store record contributes a result entry to
`listRagStores` if and only if both its `name` and `displayName`
fields are present and non-empty. -/
theorem listStores_membership (pages : List (List StoreRecord))
    (r : StoreRecord) (hr : r ∈ pages.flatten) :
    (listRagStores true pages).1
        = Except.ok (pages.flatten.filterMap mkStore) ∧
    ((∃ s, mkStore r = some s ∧ s ∈ pages.flatten.filterMap mkStore) ↔
      ((∃ n, r.name = some n ∧ n ≠ "") ∧
       (∃ d, r.displayName = some d ∧ d ≠ ""))) := by
  constructor
  · simp [listRagStores, listRagStoresLoop_eq]
  · constructor
    · rintro ⟨s, hs, _⟩
      rcases r with ⟨rn, rd⟩
      cases rn with
      | none => simp [mkStore] at hs
      | some n =>
        cases rd with
        | none => simp [mkStore] at hs
        | some d =>
          simp only [mkStore] at hs
          by_cases h : n ≠ "" ∧ d ≠ ""
          · exact ⟨⟨n, rfl, h.1⟩, ⟨d, rfl, h.2⟩⟩
          · rw [if_neg h] at hs; cases hs
    · rintro ⟨⟨n, hn, hne⟩, ⟨d, hd, hde⟩⟩
      have hs : mkStore r = some ⟨n, d⟩ := by
        rcases r with ⟨rn, rd⟩
        obtain rfl : rn = some n := hn
        obtain rfl : rd = some d := hd
        simp [mkStore, hne, hde]
      exact ⟨⟨n, d⟩, hs, List.mem_filterMap.mpr ⟨r, hr, hs⟩⟩

/-- C10 witness: a record with both fields present and non-empty is
included. -/
theorem listStores_membership_witness :
    ((∃ s, mkStore ⟨some "a", some "b"⟩ = some s ∧
        s ∈ ([[(⟨some "a", some "b"⟩ : StoreRecord)]] : List (List StoreRecord)).flatten.filterMap mkStore) ↔
      ((∃ n, (⟨some "a", some "b"⟩ : StoreRecord).name = some n ∧ n ≠ "") ∧
       (∃ d, (⟨some "a", some "b"⟩ : StoreRecord).displayName = some d ∧ d ≠ ""))) :=
  (listStores_membership [[⟨some "a", some "b"⟩]] ⟨some "a", some "b"⟩
    (by simp)).2

/-- C1 counterexample: the polled operation is terminally failed —
`done` with an error payload (`"ingestion failed"`) — yet both
ingestion calls return successfully (`Except.ok ()`), performing no
further polling, instead of surfacing an `IngestionFailed` error: the
source's `while (!op.done)` loop never inspects the error payload and
the functions end normally. -/
theorem upload_failed_op_returns_ok_cex :
    uploadDocument true "stores/s1" "f.pdf" [] ⟨true, some "ingestion failed"⟩
        (fun _ => ⟨true, none⟩) 5
      = (some (Except.ok ()), [Call.uploadCall "stores/s1"]) ∧
    uploadToRagStore true "stores/s1" "f.pdf" ⟨true, some "ingestion failed"⟩
        (fun _ => ⟨true, none⟩) 5
      = (some (Except.ok ()), [Call.uploadCall "stores/s1"]) := ⟨rfl, rfl⟩

/-- C1 (amended): when the polled operation reaches a terminal `done`
state — including one carrying a failure payload — the ingestion calls
perform no further polling and return successfully; the error payload
is never inspected and no error is surfaced. -/
theorem upload_terminal_done_no_more_polling
    (store file : String) (md : List CustomMetadata) (op0 : Operation)
    (fetch : Nat → Operation) (fuel : Nat)
    (hdone : op0.done = true) (hfuel : 0 < fuel) :
    uploadDocument true store file md op0 fetch fuel
        = (some (Except.ok ()), [Call.uploadCall store]) ∧
    uploadToRagStore true store file op0 fetch fuel
        = (some (Except.ok ()), [Call.uploadCall store]) := by
  obtain ⟨f, rfl⟩ : ∃ f, fuel = f + 1 := ⟨fuel - 1, by omega⟩
  have hp : pollOps fetch (f + 1) op0 0 = (some op0, []) := by
    simp [pollOps, hdone]
  constructor <;> simp [uploadDocument, uploadToRagStore, hp]

/-- C1 witness: a concrete terminally-failed operation. -/
theorem upload_terminal_done_no_more_polling_witness :
    (⟨true, some "quota exceeded"⟩ : Operation).done = true ∧ 0 < 3 ∧
    (uploadDocument true "stores/s2" "g.pdf" [] ⟨true, some "quota exceeded"⟩
        (fun _ => ⟨false, none⟩) 3
      = (some (Except.ok ()), [Call.uploadCall "stores/s2"]) ∧
     uploadToRagStore true "stores/s2" "g.pdf" ⟨true, some "quota exceeded"⟩
        (fun _ => ⟨false, none⟩) 3
      = (some (Except.ok ()), [Call.uploadCall "stores/s2"])) :=
  ⟨rfl, by decide,
   upload_terminal_done_no_more_polling "stores/s2" "g.pdf" []
     ⟨true, some "quota exceeded"⟩ (fun _ => ⟨false, none⟩) 3 rfl (by decide)⟩

/-- C2: when the operation's status reports not-done for the first `k`
observations (observation 0 being the initial upload reply) and done
on observation `k`, the ingestion calls return successfully with a
trace of exactly `k` status re-fetches — `k + 1` status reports in
total, counting the initial reply — each re-fetch preceded by a sleep
of the fixed 3000 ms interval, and do not return under any guard
budget `fuel' ≤ k`, i.e. only after the observation of `done`. -/
theorem ingestion_poll_fetch_count
    (store file : String) (md : List CustomMetadata) (op0 : Operation)
    (fetch : Nat → Operation) (k fuel : Nat)
    (hnot : ∀ j, j < k → (opObs op0 fetch j).done = false)
    (hdone : (opObs op0 fetch k).done = true)
    (hfuel : k < fuel) :
    uploadDocument true store file md op0 fetch fuel
        = (some (Except.ok ()), Call.uploadCall store :: pollTraceFrom 0 k) ∧
    uploadToRagStore true store file op0 fetch fuel
        = (some (Except.ok ()), Call.uploadCall store :: pollTraceFrom 0 k) ∧
    countFetches (pollTraceFrom 0 k) = k ∧
    countSleeps (pollTraceFrom 0 k) = k ∧
    (∀ fuel', fuel' ≤ k →
      (uploadDocument true store file md op0 fetch fuel').1 = none ∧
      (uploadToRagStore true store file op0 fetch fuel').1 = none) := by
  have hgen : ∀ j, j < k → (opObsFrom fetch 0 op0 j).done = false := fun j hj => by
    rw [← opObs_eq_opObsFrom]; exact hnot j hj
  have hdone' : (opObsFrom fetch 0 op0 k).done = true := by
    rw [← opObs_eq_opObsFrom]; exact hdone
  have hp := pollOps_done_general fetch k 0 fuel op0 hgen hdone' hfuel
  refine ⟨?_, ?_, countFetches_pollTraceFrom k 0, countSleeps_pollTraceFrom k 0, ?_⟩
  · simp [uploadDocument, hp]
  · simp [uploadToRagStore, hp]
  · intro fuel' hle
    have h1 := pollOps_none_general fetch fuel' k 0 op0 hle hgen
    constructor <;> simp [uploadDocument, uploadToRagStore, h1]

/-- C2 witness: a mock operation not-done for 2 status reports and done
on the third performs exactly 2 re-fetches (3 status reports), each
after a 3000 ms sleep. -/
theorem ingestion_poll_fetch_count_witness :
    (∀ j, j < 2 →
      (opObs ⟨false, none⟩
        (fun i => if i == 1 then ⟨true, none⟩ else ⟨false, none⟩) j).done = false) ∧
    (opObs ⟨false, none⟩
        (fun i => if i == 1 then ⟨true, none⟩ else ⟨false, none⟩) 2).done = true ∧
    2 < 3 ∧
    (uploadDocument true "stores/s3" "h.pdf" [] ⟨false, none⟩
        (fun i => if i == 1 then ⟨true, none⟩ else ⟨false, none⟩) 3
        = (some (Except.ok ()), Call.uploadCall "stores/s3" :: pollTraceFrom 0 2) ∧
     uploadToRagStore true "stores/s3" "h.pdf" ⟨false, none⟩
        (fun i => if i == 1 then ⟨true, none⟩ else ⟨false, none⟩) 3
        = (some (Except.ok ()), Call.uploadCall "stores/s3" :: pollTraceFrom 0 2) ∧
     countFetches (pollTraceFrom 0 2) = 2 ∧
     countSleeps (pollTraceFrom 0 2) = 2 ∧
     (∀ fuel', fuel' ≤ 2 →
       (uploadDocument true "stores/s3" "h.pdf" [] ⟨false, none⟩
         (fun i => if i == 1 then ⟨true, none⟩ else ⟨false, none⟩) fuel').1 = none ∧
       (uploadToRagStore true "stores/s3" "h.pdf" ⟨false, none⟩
         (fun i => if i == 1 then ⟨true, none⟩ else ⟨false, none⟩) fuel').1 = none)) :=
  ⟨by decide, by decide, by decide,
   ingestion_poll_fetch_count "stores/s3" "h.pdf" [] ⟨false, none⟩
     (fun i => if i == 1 then ⟨true, none⟩ else ⟨false, none⟩) 2 3
     (by decide) (by decide) (by decide)⟩

/-- C5: once initialized, `generateExampleQuestions` never raises to
its caller — its result is always `Except.ok` — and each failure path
(backend call rejected; extracted payload fails to parse; parse result
not an array; array whose first element has an unexpected shape)
returns the empty sequence. -/
theorem suggestions_never_raise (map : String → Option String)
    (store lang : String) (gen : String → Except String String)
    (parse : List Char → Option Json) :
    (∃ qs, (generateExampleQuestions true map store lang gen parse).1
        = Except.ok qs) ∧
    (∀ e, gen (exampleQuestionsPrompt (suggestionLanguageName map lang))
          = Except.error e →
      generateExampleQuestions true map store lang gen parse
        = (Except.ok [], [Call.generate])) ∧
    (∀ text, gen (exampleQuestionsPrompt (suggestionLanguageName map lang))
          = Except.ok text →
      parse (extractJsonText (jsTrim text.toList)) = none →
      generateExampleQuestions true map store lang gen parse
        = (Except.ok [], [Call.generate])) ∧
    (∀ text d, gen (exampleQuestionsPrompt (suggestionLanguageName map lang))
          = Except.ok text →
      parse (extractJsonText (jsTrim text.toList)) = some d →
      (∀ items, d ≠ Json.arr items) →
      generateExampleQuestions true map store lang gen parse
        = (Except.ok [], [Call.generate])) ∧
    (∀ text first rest,
      gen (exampleQuestionsPrompt (suggestionLanguageName map lang))
          = Except.ok text →
      parse (extractJsonText (jsTrim text.toList))
          = some (Json.arr (first :: rest)) →
      isObjWithQuestionsArr first = false → isJsonString first = false →
      generateExampleQuestions true map store lang gen parse
        = (Except.ok [], [Call.generate])) := by
  refine ⟨?_, ?_, ?_, ?_, ?_⟩
  · cases hg : gen (exampleQuestionsPrompt (suggestionLanguageName map lang)) with
    | error e => exact ⟨[], by simp [generateExampleQuestions, hg]⟩
    | ok text =>
      cases hp : parse (extractJsonText (jsTrim text.toList)) with
      | none =>
        exact ⟨[], by
          simp only [String.toList] at hp
          simp [generateExampleQuestions, hg, hp]⟩
      | some d =>
        cases hc : coerceParsed d with
        | error u =>
          exact ⟨[], by
            simp only [String.toList] at hp
            simp [generateExampleQuestions, hg, hp, hc]⟩
        | ok qs =>
          exact ⟨qs, by
            simp only [String.toList] at hp
            simp [generateExampleQuestions, hg, hp, hc]⟩
  · intro e hg; simp [generateExampleQuestions, hg]
  · intro text hg hp
    simp only [String.toList] at hp
    simp [generateExampleQuestions, hg, hp]
  · intro text d hg hp hd
    simp only [String.toList] at hp
    simp [generateExampleQuestions, hg, hp, coerceParsed_not_arr d hd]
  · intro text first rest hg hp h1 h2
    simp only [String.toList] at hp
    simp [generateExampleQuestions, hg, hp, coerceParsed, h1, h2]

/-- C5 witness: a rejected backend call degrades to the empty
sequence rather than an error. -/
theorem suggestions_never_raise_witness :
    generateExampleQuestions true (fun _ => none) "stores/s1" "en"
        (fun _ => Except.error "network down") (fun _ => none)
      = (Except.ok [], [Call.generate]) :=
  (suggestions_never_raise (fun _ => none) "stores/s1" "en"
      (fun _ => Except.error "network down") (fun _ => none)).2.1
    "network down" rfl

/-- C6 counterexample: for the parsed non-empty array
`[ \x7b "questions": ["q1"] \x7d, null ]`, whose first element is an
object with an array-valued `questions` field, the claimed coercion
(`coerceSpec`, following the claim's wording) yields `["q1"]`, but the
code yields the empty list: the flatMap callback evaluates
`null.questions`, which throws, and the catch converts the whole call
to `[]`. -/
theorem coercion_null_element_cex :
    generateExampleQuestions true (fun _ => none) "stores/s1" "en"
        (fun _ => Except.ok "irrelevant")
        (fun _ => some (Json.arr
          [Json.obj [("questions", Json.arr [Json.str "q1"])], Json.null]))
      = (Except.ok [], [Call.generate]) ∧
    coerceSpec (Json.arr
        [Json.obj [("questions", Json.arr [Json.str "q1"])], Json.null])
      = ["q1"] ∧
    (["q1"] : List String) ≠ [] := ⟨rfl, rfl, by decide⟩

/-- C6 (amended): for every parsed non-empty JSON array, the shape
coercion satisfies: if the first element is an object with an
array-valued `questions` field and no element of the array is `null`,
the result is the concatenation over all elements of their `questions`
payloads (the `questions` field when array-valued, the value itself
when truthy and not an array, nothing when absent or falsy) keeping
only string entries; if some element is `null`, the coercion throws
internally and the enclosing call returns the empty sequence; else if
the first element is a string, the result is the array filtered to its
string entries; else the result is empty. -/
theorem coercion_shape_cases (first : Json) (rest : List Json) :
    (isObjWithQuestionsArr first = true → Json.null ∉ first :: rest →
      coerceParsed (Json.arr (first :: rest))
        = Except.ok (((first :: rest).flatMap questionsPure).filterMap asString)) ∧
    (isObjWithQuestionsArr first = true → Json.null ∈ first :: rest →
      coerceParsed (Json.arr (first :: rest)) = Except.error () ∧
      (∀ (map : String → Option String) (store lang text : String)
         (parse : List Char → Option Json),
        parse (extractJsonText (jsTrim text.toList))
            = some (Json.arr (first :: rest)) →
        generateExampleQuestions true map store lang
            (fun _ => Except.ok text) parse
          = (Except.ok [], [Call.generate]))) ∧
    (∀ s, first = Json.str s →
      coerceParsed (Json.arr (first :: rest))
        = Except.ok ((first :: rest).filterMap asString)) ∧
    (isObjWithQuestionsArr first = false → isJsonString first = false →
      coerceParsed (Json.arr (first :: rest)) = Except.ok []) := by
  refine ⟨?_, ?_, ?_, ?_⟩
  · intro hobj hnull
    simp [coerceParsed, hobj, flatMapQuestions_no_null _ hnull, Except.map]
  · intro hobj hnull
    have hfm := flatMapQuestions_with_null _ hnull
    refine ⟨by simp [coerceParsed, hobj, hfm, Except.map], ?_⟩
    intro map store lang text parse hp
    simp only [String.toList] at hp
    simp [generateExampleQuestions, hp, coerceParsed, hobj, hfm, Except.map]
  · intro s hfs
    subst hfs
    simp [coerceParsed, isObjWithQuestionsArr, isJsonString]
  · intro h1 h2
    simp [coerceParsed, h1, h2]

/-- C6 witness: the string-array shape filters to its string
entries. -/
theorem coercion_shape_cases_witness :
    coerceParsed (Json.arr [Json.str "q1", Json.str "q2"])
      = Except.ok ["q1", "q2"] :=
  (coercion_shape_cases (Json.str "q1") [Json.str "q2"]).2.2.1 "q1" rfl

/-- C9: `fileSearch` resolves the language code through the static
`supportedLanguages` mapping (passed as the lookup function, its table
living outside the embedded module): a mapped, non-empty language name
is used as is, and an unrecognized code falls back to the directive
string "the user's query language"; with the fallback in place the
query call still succeeds — it does not fail on the unknown code. -/
theorem language_resolution_fallback (map : String → Option String)
    (store query lang : String)
    (gen : String → Except String GenResponse) :
    (map lang = none →
      languageNameFor map lang = "the user\x27s query language") ∧
    (∀ nm, map lang = some nm → nm ≠ "" → languageNameFor map lang = nm) ∧
    (∀ resp, map lang = none →
      gen (fileSearchContents query (languageNameFor map lang))
          = Except.ok resp →
      fileSearch true map store query lang gen
        = (Except.ok ⟨resp.text, extractChunks resp⟩, [Call.generate])) := by
  refine ⟨?_, ?_, ?_⟩
  · intro h; simp [languageNameFor, h]
  · intro nm h hne; simp [languageNameFor, h, hne]
  · intro resp h hg
    simp [fileSearch, hg]

/-- C9 witness: an unrecognized code resolves to the fallback
directive and the query still succeeds. -/
theorem language_resolution_fallback_witness :
    languageNameFor (fun _ => none) "zz" = "the user\x27s query language" ∧
    fileSearch true (fun _ => none) "stores/s1" "how?" "zz"
        (fun _ => Except.ok ⟨"answer", none⟩)
      = (Except.ok ⟨"answer", []⟩, [Call.generate]) :=
  ⟨(language_resolution_fallback (fun _ => none) "stores/s1" "how?" "zz"
      (fun _ => Except.ok ⟨"answer", none⟩)).1 rfl,
   (language_resolution_fallback (fun _ => none) "stores/s1" "how?" "zz"
      (fun _ => Except.ok ⟨"answer", none⟩)).2.2 ⟨"answer", none⟩ rfl rfl⟩

end GeminiSvc
